import Mathlib

/-!
Verification of the node-api-starter catalog API (Express + zod + Prisma).

This file shallowly embeds the data model, validation schemas, services,
controllers and the central error handler of the repository, and proves the
frozen claims about them. The database is modelled as in-memory lists of
rows; each HTTP operation is a pure function from the current database and
the (already body-parsed) request data to a response plus the next database.

Modelling conventions, stated once:
- Prisma `Decimal` (the `price` column) is modelled as `ℚ`; the JSON numbers
  appearing in request bodies are also modelled as `ℚ` (IEEE doubles are
  exact on all values these claims touch).
- `prisma.<model>.findUnique` is modelled as `List.find?`, and an update /
  delete through a unique `where` clause as a replace / erase of the first
  matching row (the unique column makes the first match the only match).
- JavaScript string truthiness (`if (x)` on a possibly-absent string) is
  modelled as `x` being present and nonempty.
-/

namespace NodeApiStarter

/-! ### Data model (prisma rows) -/

/-- A JSON field that distinguishes `undefined` (absent), `null`, and a value:
the shape zod produces for `.optional().nullable()` fields. -/
inductive NVal (α : Type) where
  | absent
  | null
  | val (a : α)
  deriving DecidableEq, Repr

/-- A `Product` row. Timestamps are modelled as abstract `Nat` instants. -/
structure Product where
  id : String
  name : String
  description : Option String
  price : ℚ
  stock : Int
  sku : String
  isActive : Bool
  categoryId : String
  createdAt : Nat
  updatedAt : Nat
  deriving DecidableEq, Repr

/-- A `Category` row. -/
structure Category where
  id : String
  name : String
  description : Option String
  createdAt : Nat
  updatedAt : Nat
  deriving DecidableEq, Repr

/-- The database state: the two tables. -/
structure DB where
  products : List Product
  categories : List Category
  deriving DecidableEq, Repr

/-! ### Small string / list helpers (kernel-reducible stand-ins for the
JS / runtime primitives the code uses) -/

/-- ASCII whitespace recognizer used by the trim model. -/
def wsChar (c : Char) : Bool :=
  c == ' ' || c == '\t' || c == '\n' || c == '\r'

/-- Model of JS `String.prototype.trim` (ASCII whitespace only). -/
def strTrim (s : String) : String :=
  ⟨((s.data.dropWhile wsChar).reverse.dropWhile wsChar).reverse⟩

/-- ASCII lower casing of one character. -/
def charLower (c : Char) : Char :=
  if 'A' ≤ c && c ≤ 'Z' then Char.ofNat (c.toNat + 32) else c

/-- ASCII lower casing of a string (model of the case-folding the database
applies for `mode: 'insensitive'`). -/
def strLower (s : String) : String :=
  ⟨s.data.map charLower⟩

/-- Does `pat` occur as a contiguous run inside `hay`? -/
def hasInfix (hay pat : List Char) : Bool :=
  match hay with
  | [] => pat.isEmpty
  | _ :: t => pat.isPrefixOf hay || hasInfix t pat

/-- Model of the ORM `contains … mode: 'insensitive'` filter: case-insensitive
substring test. -/
def containsCI (hay pat : String) : Bool :=
  hasInfix (strLower hay).data (strLower pat).data

/-- Replace the first element satisfying `p` by its image under `f`
(model of an ORM update through a unique `where` clause). -/
def updateFirst (p : α → Bool) (f : α → α) : List α → List α
  | [] => []
  | x :: xs => if p x then f x :: xs else x :: updateFirst p f xs

/-- Is `c` an ASCII hexadecimal digit? -/
def isHexChar (c : Char) : Bool :=
  c.isDigit || ('a' ≤ c && c ≤ 'f') || ('A' ≤ c && c ≤ 'F')

/-- Model of the zod `z.string().uuid()` check: 36 characters in the
8-4-4-4-12 hex-with-dashes shape. -/
def isUuid (s : String) : Bool :=
  let cs := s.data
  cs.length == 36 &&
    (List.range 36).all fun i =>
      let c := cs.getD i ' '
      if i == 8 || i == 13 || i == 18 || i == 23 then c == '-' else isHexChar c

/-! ### Decimal literal parsing (models of JS `parseFloat` and `Number`)

Both models cover plain decimal literals (optional sign, digits, optional
fractional part). Exponents, hexadecimal forms and `Infinity` are outside
the model; no claim in this development depends on them. -/

/-- Numeric value of one ASCII digit. -/
def digitVal (c : Char) : Nat := c.toNat - 48

/-- Value of a digit run, most significant first. -/
def natOfDigits (cs : List Char) : Nat :=
  cs.foldl (fun n c => n * 10 + digitVal c) 0

/-- Value of a decimal literal from its sign, integer digits and fraction
digits. -/
def decValue (neg : Bool) (ip fp : List Char) : ℚ :=
  let v : ℚ := (natOfDigits ip : ℚ) + (natOfDigits fp : ℚ) / (10 : ℚ) ^ fp.length
  if neg then -v else v

/-- Model of JS `parseFloat`: skip leading whitespace, read an optional sign
and the longest decimal-literal prefix; `none` models `NaN` (no digit
found). Trailing junk is ignored, as in JS. -/
def jsParseFloat (s : String) : Option ℚ :=
  let cs := s.data.dropWhile wsChar
  let signed : Bool × List Char :=
    match cs with
    | '-' :: r => (true, r)
    | '+' :: r => (false, r)
    | _ => (false, cs)
  let ip := signed.2.takeWhile Char.isDigit
  let rest := signed.2.drop ip.length
  let fp :=
    match rest with
    | '.' :: r => r.takeWhile Char.isDigit
    | _ => []
  if ip.isEmpty && fp.isEmpty then none else some (decValue signed.1 ip fp)

/-- Model of JS `Number(string)` as used by `z.coerce.number()`: the whole
trimmed string must be a decimal literal; the empty string coerces to `0`;
`none` models `NaN`. -/
def jsNumber (s : String) : Option ℚ :=
  let cs := (strTrim s).data
  if cs.isEmpty then some 0
  else
    let signed : Bool × List Char :=
      match cs with
      | '-' :: r => (true, r)
      | '+' :: r => (false, r)
      | _ => (false, cs)
    let ip := signed.2.takeWhile Char.isDigit
    let rest := signed.2.drop ip.length
    let fpRest : List Char × List Char :=
      match rest with
      | '.' :: r => (r.takeWhile Char.isDigit, r.drop (r.takeWhile Char.isDigit).length)
      | _ => ([], rest)
    if (ip.isEmpty && fpRest.1.isEmpty) || !fpRest.2.isEmpty then none
    else some (decValue signed.1 ip fpRest.1)

/-! ### Response envelope -/

/-- The part of the uniform response envelope the claims mention: the HTTP
status, the `message` field and the optional `error` detail. -/
structure Resp where
  status : Nat
  message : String
  error : Option String
  deriving DecidableEq, Repr

/-! ### Central error handler (`src/middlewares.ts`, `errorHandler`) -/

/-- The discriminations `errorHandler` performs on a thrown value:
a `ZodError`, an error whose `name` is `PrismaClientKnownRequestError`
(carrying a `code` and the optional `meta.target` array), one whose `name`
is `PrismaClientValidationError`, or any other error (its `name` and
`message`). -/
inductive AppError where
  | zodError (msg : String)
  | prismaKnown (code : String) (target : Option (List String))
  | prismaValidation
  | generic (name : String) (msg : String)
  deriving DecidableEq, Repr

/-- Embedding of `errorHandler` from `src/middlewares.ts`. `dev` models
`process.env.NODE_ENV === 'development'`. -/
def errorHandler (dev : Bool) (e : AppError) : Resp :=
  match e with
  | .zodError msg => ⟨400, "Validation error", some msg⟩
  | .prismaKnown code target =>
    if code = "P2002" then
      let field :=
        match target with
        | some (f :: _) => if f = "" then "field" else f
        | _ => "field"
      ⟨400, "A record with this " ++ field ++ " already exists", none⟩
    else if code = "P2025" then ⟨404, "Record not found", none⟩
    else if code = "P2003" then ⟨400, "Referenced record does not exist", none⟩
    else ⟨500, "Internal server error", some "Database error occurred"⟩
  | .prismaValidation => ⟨400, "Invalid data provided", none⟩
  | .generic _ msg => ⟨500, "Internal server error", if dev then some msg else none⟩

/-! ### Validation schemas (`src/modules/products/types.ts`,
`src/modules/category/types.ts`) -/

/-- Outcome of a `safeParse` call on a schema containing the throwing price
transform: `ok` a validated value, `fail` a collected validation issue
(`success: false`), or `threw` an exception that escaped `safeParse`
(a plain `Error` raised inside `.transform`). -/
inductive ParseOutcome (α : Type) where
  | ok (val : α)
  | fail (msg : String)
  | threw (msg : String)
  deriving DecidableEq, Repr

/-- The `price` field of a raw JSON body: a JSON number or a JSON string
(the two branches of `z.union([z.string(), z.number()])`). -/
inductive PriceRaw where
  | num (q : ℚ)
  | str (s : String)
  deriving DecidableEq, Repr

/-- A raw product-create body. Each field is the JSON value at that key when
it has the primitive type its schema branch accepts; bodies with other JSON
types at a key fail validation and are not distinguished further by any
claim. -/
structure RawProductBody where
  name : Option String
  description : NVal String
  price : Option PriceRaw
  stock : Option ℚ
  sku : Option String
  isActive : Option Bool
  categoryId : Option String
  deriving DecidableEq, Repr

/-- The output type of `createProductSchema` (zod defaults applied). -/
structure CreateProductInput where
  name : String
  description : NVal String
  price : ℚ
  stock : Int
  sku : String
  isActive : Bool
  categoryId : String
  deriving DecidableEq, Repr

/-- The output type of `updateProductSchema` (`productBaseSchema.partial()`). -/
structure UpdateProductInput where
  name : Option String
  description : NVal String
  price : Option ℚ
  stock : Option Int
  sku : Option String
  isActive : Option Bool
  categoryId : Option String
  deriving DecidableEq, Repr

/-- The upper bound of the price schema, `99999999.99`. -/
def priceMax : ℚ := (9999999999 : ℚ) / 100

/-- The price branch of `productBaseSchema`: the union admits a number or a
string; a string goes through `parseFloat`, and a `NaN` result raises a
plain `Error('Invalid price format')` inside the transform (which therefore
escapes `safeParse`); the piped checks require `0 < price ≤ 99999999.99`. -/
def parsePrice : Option PriceRaw → ParseOutcome ℚ
  | none => .fail "Required"
  | some (.num q) =>
    if 0 < q ∧ q ≤ priceMax then .ok q else .fail "Price out of range"
  | some (.str s) =>
    match jsParseFloat s with
    | none => .threw "Invalid price format"
    | some q => if 0 < q ∧ q ≤ priceMax then .ok q else .fail "Price out of range"

/-- The description branch shared by both entities: absent and `null` pass
through; a string must satisfy the length bound and is trimmed. -/
def checkDesc (maxLen : Nat) : NVal String → Option (NVal String)
  | .absent => some .absent
  | .null => some .null
  | .val s => if s.length ≤ maxLen then some (.val (strTrim s)) else none

/-- The stock branch: an integer `≥ 0`, defaulting to `0` when absent. -/
def checkStock : Option ℚ → Option Int
  | none => some 0
  | some q => if q.den = 1 ∧ 0 ≤ q.num then some q.num else none

/-- Embedding of `createProductSchema.safeParse`. The price transform runs
whenever the price field is present with a parseable branch, so a throw
there dominates any other issue, matching zod running every field of the
object; all remaining failures collapse to `fail` (the claims only inspect
the resulting status, never the issue list). -/
def parseCreateProduct (b : RawProductBody) : ParseOutcome CreateProductInput :=
  match parsePrice b.price with
  | .threw m => .threw m
  | .fail m => .fail m
  | .ok price =>
    match b.name, b.sku, b.categoryId with
    | some nm, some sk, some cid =>
      if 1 ≤ nm.length ∧ nm.length ≤ 200 ∧ 1 ≤ sk.length ∧ sk.length ≤ 50
          ∧ isUuid cid = true then
        match checkDesc 1000 b.description, checkStock b.stock with
        | some d, some st =>
          .ok ⟨strTrim nm, d, price, st, strTrim sk, b.isActive.getD true, cid⟩
        | _, _ => .fail "Validation failed"
      else .fail "Validation failed"
    | _, _, _ => .fail "Validation failed"

/-- The price branch under `.partial()`: an absent field is accepted as
absent; a present field goes through the same union/transform/pipe. -/
def parsePriceOpt : Option PriceRaw → ParseOutcome (Option ℚ)
  | none => .ok none
  | some pr =>
    match parsePrice (some pr) with
    | .ok q => .ok (some q)
    | .fail m => .fail m
    | .threw m => .threw m

/-- Embedding of `updateProductSchema.safeParse` (every field optional). -/
def parseUpdateProduct (b : RawProductBody) : ParseOutcome UpdateProductInput :=
  match parsePriceOpt b.price with
  | .threw m => .threw m
  | .fail m => .fail m
  | .ok price =>
    let nameOk := match b.name with
      | none => true
      | some nm => decide (1 ≤ nm.length ∧ nm.length ≤ 200)
    let skuOk := match b.sku with
      | none => true
      | some sk => decide (1 ≤ sk.length ∧ sk.length ≤ 50)
    let cidOk := match b.categoryId with
      | none => true
      | some cid => isUuid cid
    let stockOk : Option (Option Int) := match b.stock with
      | none => some none
      | some q => if q.den = 1 ∧ 0 ≤ q.num then some (some q.num) else none
    if nameOk && skuOk && cidOk then
      match checkDesc 1000 b.description, stockOk with
      | some d, some st =>
        .ok ⟨b.name.map strTrim, d, price, st, b.sku.map strTrim, b.isActive, b.categoryId⟩
      | _, _ => .fail "Validation failed"
    else .fail "Validation failed"

/-- A raw category-update body. -/
structure RawCategoryBody where
  name : Option String
  description : NVal String
  deriving DecidableEq, Repr

/-- The output type of `updateCategorySchema`. -/
structure UpdateCategoryInput where
  name : Option String
  description : NVal String
  deriving DecidableEq, Repr

/-- Embedding of `updateCategorySchema.safeParse` (name `≤ 100` characters,
description `≤ 500`, both optional, strings trimmed). -/
def parseUpdateCategory (b : RawCategoryBody) : Option UpdateCategoryInput :=
  let nameOk := match b.name with
    | none => true
    | some nm => decide (1 ≤ nm.length ∧ nm.length ≤ 100)
  if nameOk then
    match checkDesc 500 b.description with
    | some d => some ⟨b.name.map strTrim, d⟩
    | none => none
  else none

/-! ### Query schemas -/

/-- The sort columns `productQuerySchema` whitelists. -/
inductive SortBy where
  | name
  | price
  | createdAt
  | stock
  deriving DecidableEq, Repr

/-- Sort directions. -/
inductive SortOrder where
  | asc
  | desc
  deriving DecidableEq, Repr

/-- The output type of `productQuerySchema`. -/
structure ProductQuery where
  page : Nat
  limit : Nat
  search : Option String
  categoryId : Option String
  isActive : Option Bool
  minPrice : Option ℚ
  maxPrice : Option ℚ
  sortBy : SortBy
  sortOrder : SortOrder
  deriving DecidableEq, Repr

/-- The output type of `categoryQuerySchema`. -/
structure CategoryQuery where
  page : Nat
  limit : Nat
  search : Option String
  deriving DecidableEq, Repr

/-- A raw query string: key-value pairs as Express exposes them in
`req.query` (scalar string values; repeated keys are outside the model). -/
def RawQuery : Type := List (String × String)

/-- The optional `.max` bound of the coerced-number pipeline. -/
def boundOk (maxV : Option Nat) (v : Int) : Bool :=
  match maxV with
  | none => true
  | some m => decide (v ≤ m)

/-- The `z.coerce.number().int().positive()` pipeline with an optional
`.max` bound and a default for the absent case, as used by `page` and
`limit`. -/
def parsePosInt (raw : Option String) (dflt : Nat) (maxV : Option Nat) : Option Nat :=
  match raw with
  | none => some dflt
  | some s =>
    match jsNumber s with
    | none => none
    | some q =>
      if q.den = 1 ∧ 0 < q.num ∧ boundOk maxV q.num = true then
        some q.num.toNat
      else none

/-- The `z.coerce.number().positive()` pipeline used by `minPrice` and
`maxPrice` (optional, no integrality). -/
def parsePosRat (raw : Option String) : Option (Option ℚ) :=
  match raw with
  | none => some none
  | some s =>
    match jsNumber s with
    | none => none
    | some q => if 0 < q then some (some q) else none

/-- Embedding of `categoryQuerySchema.safeParse` over a raw query string:
only the keys `page`, `limit` and `search` are consulted (zod objects strip
unknown keys). -/
def parseCategoryQuery (raw : RawQuery) : Option CategoryQuery :=
  match parsePosInt (raw.lookup "page") 1 none,
        parsePosInt (raw.lookup "limit") 10 (some 100) with
  | some page, some limit => some ⟨page, limit, raw.lookup "search"⟩
  | _, _ => none

/-- The `sortBy` enum of `productQuerySchema`, defaulting to `createdAt`. -/
def parseSortBy : Option String → Option SortBy
  | none => some .createdAt
  | some "name" => some .name
  | some "price" => some .price
  | some "createdAt" => some .createdAt
  | some "stock" => some .stock
  | some _ => none

/-- The `sortOrder` enum of `productQuerySchema`, defaulting to `desc`. -/
def parseSortOrder : Option String → Option SortOrder
  | none => some .desc
  | some "asc" => some .asc
  | some "desc" => some .desc
  | some _ => none

/-- Embedding of `productQuerySchema.safeParse` over a raw query string.
`isActive` is the literal-string transform `val === 'true'`; `categoryId`
must be a uuid when present. -/
def parseProductQuery (raw : RawQuery) : Option ProductQuery :=
  match parsePosInt (raw.lookup "page") 1 none,
        parsePosInt (raw.lookup "limit") 10 (some 100),
        parsePosRat (raw.lookup "minPrice"),
        parsePosRat (raw.lookup "maxPrice"),
        parseSortBy (raw.lookup "sortBy"),
        parseSortOrder (raw.lookup "sortOrder") with
  | some page, some limit, some minP, some maxP, some sb, some so =>
    let cidOk := match raw.lookup "categoryId" with
      | none => true
      | some c => isUuid c
    if cidOk then
      some ⟨page, limit, raw.lookup "search", raw.lookup "categoryId",
            (raw.lookup "isActive").map (fun v => v == "true"), minP, maxP, sb, so⟩
    else none
  | _, _, _, _, _, _ => none

/-! ### Services -/

/-- Pagination slice: offset `(page − 1) × limit`, size `limit` (the
`skip` / `take` arguments both services compute). -/
def paginate (page limit : Nat) (l : List α) : List α :=
  (l.drop ((page - 1) * limit)).take limit

/-- Model of `Math.ceil(total / limit)`: exact rational division then
ceiling (IEEE doubles are exact at every size these counts reach). -/
def mathCeilDiv (n l : Nat) : Nat :=
  (⌈(n : ℚ) / (l : ℚ)⌉).toNat

/-- The pagination metadata block both `findAll` services return. -/
structure Meta where
  page : Nat
  limit : Nat
  total : Nat
  totalPages : Nat
  deriving DecidableEq, Repr

/-- The conjunctive `where` clause `productService.findAll` builds: an OR of
case-insensitive substring matches when a (truthy) search term is given,
exact `categoryId` (when truthy) and `isActive` matches, and an inclusive
price range. A `contains` filter on the nullable `description` column is
false on `NULL` rows. -/
def productWhere (q : ProductQuery) (p : Product) : Bool :=
  (match q.search with
   | none => true
   | some s =>
     if s = "" then true
     else
       containsCI p.name s ||
       (match p.description with
        | some d => containsCI d s
        | none => false) ||
       containsCI p.sku s) &&
  (match q.categoryId with
   | none => true
   | some c => if c = "" then true else p.categoryId == c) &&
  (match q.isActive with
   | none => true
   | some b => p.isActive == b) &&
  (match q.minPrice with
   | none => true
   | some m => decide (m ≤ p.price)) &&
  (match q.maxPrice with
   | none => true
   | some m => decide (p.price ≤ m))

/-- The `where` clause `categoryService.findAll` builds: substring match on
name or description when a search term is given. -/
def categoryWhere (q : CategoryQuery) (c : Category) : Bool :=
  match q.search with
  | none => true
  | some s =>
    if s = "" then true
    else
      containsCI c.name s ||
      (match c.description with
       | some d => containsCI d s
       | none => false)

/-- The non-strict comparison on the whitelisted sort column. -/
def prodKeyLe (sb : SortBy) (a b : Product) : Bool :=
  match sb with
  | .name => decide (a.name ≤ b.name)
  | .price => decide (a.price ≤ b.price)
  | .createdAt => decide (a.createdAt ≤ b.createdAt)
  | .stock => decide (a.stock ≤ b.stock)

/-- The order relation the `orderBy: { [sortBy]: sortOrder }` clause asks
the database for. -/
def prodR (sb : SortBy) (so : SortOrder) (a b : Product) : Prop :=
  match so with
  | .asc => prodKeyLe sb a b = true
  | .desc => prodKeyLe sb b a = true

instance (sb : SortBy) (so : SortOrder) : DecidableRel (prodR sb so) := by
  intro a b
  unfold prodR
  cases so <;> exact instDecidableEqBool _ _

/-- The `orderBy: { createdAt: 'desc' }` relation of the category listing. -/
def createdAtDesc (a b : Category) : Prop :=
  b.createdAt ≤ a.createdAt

instance : DecidableRel createdAtDesc := fun a b => Nat.decLe b.createdAt a.createdAt

instance : IsTotal Category createdAtDesc :=
  ⟨fun a b => (Nat.le_total b.createdAt a.createdAt).imp id id⟩

instance : IsTrans Category createdAtDesc :=
  ⟨fun _ _ _ hab hbc => Nat.le_trans hbc hab⟩

/-- Embedding of `productService.findAll`: filter, order, page slice and
the derived metadata (the ordered fetch is modelled by a sort producing a
list ordered by the requested relation). -/
def productService.findAll (q : ProductQuery) (db : DB) : List Product × Meta :=
  let filtered := db.products.filter (productWhere q)
  let sorted := List.insertionSort (prodR q.sortBy q.sortOrder) filtered
  (paginate q.page q.limit sorted,
   ⟨q.page, q.limit, filtered.length, mathCeilDiv filtered.length q.limit⟩)

/-- Embedding of `categoryService.findAll`: filter, order by `createdAt`
descending, page slice and the derived metadata. -/
def categoryService.findAll (q : CategoryQuery) (db : DB) : List Category × Meta :=
  let filtered := db.categories.filter (categoryWhere q)
  let sorted := List.insertionSort createdAtDesc filtered
  (paginate q.page q.limit sorted,
   ⟨q.page, q.limit, filtered.length, mathCeilDiv filtered.length q.limit⟩)

/-- Embedding of `productService.update`: the spread-if-defined object —
only fields present in the validated input are written, and a `null`
description clears the column.

Modelled from the spec: the prisma schema file is not under `src/`, so
whether any column updates automatically is taken from the spec, whose
update contract ("applies only the fields present in the validated input";
"`update` with an empty partial body is a no-op returning the unchanged
record") leaves the timestamps untouched here. -/
def applyProductUpdate (p : Product) (u : UpdateProductInput) : Product :=
  { p with
    name := u.name.getD p.name
    description :=
      match u.description with
      | .absent => p.description
      | .null => none
      | .val s => some s
    price := u.price.getD p.price
    stock := u.stock.getD p.stock
    sku := u.sku.getD p.sku
    isActive := u.isActive.getD p.isActive
    categoryId := u.categoryId.getD p.categoryId }

/-- Embedding of `categoryService.update` (same spread-if-defined shape;
see `applyProductUpdate` for the spec-modelled timestamp convention). -/
def applyCategoryUpdate (c : Category) (u : UpdateCategoryInput) : Category :=
  { c with
    name := u.name.getD c.name
    description :=
      match u.description with
      | .absent => c.description
      | .null => none
      | .val s => some s }

/-- Embedding of `categoryService.hasProducts`: a count over the products
whose `categoryId` matches, compared with zero. -/
def categoryService.hasProducts (db : DB) (id : String) : Bool :=
  0 < (db.products.filter (fun p => p.categoryId == id)).length

/-- The row `productService.create` persists: missing description normalizes
to an explicit `null` (`data.description ?? null`); `id` and the timestamps
are generated by the database layer and passed in here. -/
def mkProduct (fresh : String) (now : Nat) (i : CreateProductInput) : Product :=
  ⟨fresh, i.name,
   (match i.description with
    | .val s => some s
    | _ => none),
   i.price, i.stock, i.sku, i.isActive, i.categoryId, now, now⟩

/-! ### Controllers -/

/-- The observable outcome of a mutating controller call: status, message,
returned record (when any) and the database afterwards. -/
structure MutResult (α : Type) where
  status : Nat
  message : String
  data : Option α
  db : DB
  deriving DecidableEq, Repr

/-- The observable outcome of a list endpoint. -/
structure ListResult (α : Type) where
  status : Nat
  items : List α
  meta : Option Meta
  deriving DecidableEq, Repr

/-- Embedding of `productController.getAll`: a failed query parse is a 400,
otherwise the service result with its metadata under a 200. -/
def productController.getAll (db : DB) (raw : RawQuery) : ListResult Product :=
  match parseProductQuery raw with
  | none => ⟨400, [], none⟩
  | some q =>
    let r := productService.findAll q db
    ⟨200, r.1, some r.2⟩

/-- Embedding of `categoryController.getAll`. -/
def categoryController.getAll (db : DB) (raw : RawQuery) : ListResult Category :=
  match parseCategoryQuery raw with
  | none => ⟨400, [], none⟩
  | some q =>
    let r := categoryService.findAll q db
    ⟨200, r.1, some r.2⟩

/-- Embedding of `productController.create`: validate the body (a throw in
the price transform escapes to the central error handler), check the
referenced category exists (400), check the sku is not taken (409), then
persist (201). -/
def productController.create (dev : Bool) (fresh : String) (now : Nat)
    (db : DB) (body : RawProductBody) : MutResult Product :=
  match parseCreateProduct body with
  | .threw m =>
    let r := errorHandler dev (AppError.generic "Error" m)
    ⟨r.status, r.message, none, db⟩
  | .fail _ => ⟨400, "Validation failed", none, db⟩
  | .ok input =>
    match db.categories.find? (fun c => c.id == input.categoryId) with
    | none => ⟨400, "Category not found", none, db⟩
    | some _ =>
      match db.products.find? (fun p => p.sku == input.sku) with
      | some _ => ⟨409, "Product with this SKU already exists", none, db⟩
      | none =>
        let p := mkProduct fresh now input
        ⟨201, "Product created successfully", some p,
         { db with products := db.products ++ [p] }⟩

/-- Embedding of `productController.update`: id format (400), body parse
(400, or 500 through the error handler when the price transform throws),
existence (404), category existence when a categoryId is supplied (400),
sku duplication when a truthy sku differs from the current one (409), then
the spread-if-defined update (200). -/
def productController.update (dev : Bool) (db : DB) (id : String)
    (body : RawProductBody) : MutResult Product :=
  if isUuid id = false then ⟨400, "Invalid product ID", none, db⟩
  else
    match parseUpdateProduct body with
    | .threw m =>
      let r := errorHandler dev (AppError.generic "Error" m)
      ⟨r.status, r.message, none, db⟩
    | .fail _ => ⟨400, "Validation failed", none, db⟩
    | .ok input =>
      match db.products.find? (fun p => p.id == id) with
      | none => ⟨404, "Product not found", none, db⟩
      | some existing =>
        let catMissing : Bool := match input.categoryId with
          | none => false
          | some c =>
            if c = "" then false
            else (db.categories.find? (fun (k : Category) => k.id == c)).isNone
        if catMissing then ⟨400, "Category not found", none, db⟩
        else
          let dup : Bool := match input.sku with
            | none => false
            | some s =>
              if s = "" ∨ s = existing.sku then false
              else (db.products.find? (fun (p : Product) => p.sku == s)).isSome
          if dup then ⟨409, "Product with this SKU already exists", none, db⟩
          else
            ⟨200, "Product updated successfully",
             some (applyProductUpdate existing input),
             { db with
               products :=
                 updateFirst (fun p => p.id == id)
                   (fun p => applyProductUpdate p input) db.products }⟩

/-- Embedding of `productController.toggleActive`: id format (400), then
the service reads the current flag and writes its negation (200 with the
updated record), or 404 when no row matches. -/
def productController.toggleActive (db : DB) (id : String) : MutResult Product :=
  if isUuid id = false then ⟨400, "Invalid product ID", none, db⟩
  else
    match db.products.find? (fun p => p.id == id) with
    | none => ⟨404, "Product not found", none, db⟩
    | some p =>
      ⟨200,
       if !p.isActive then "Product activated successfully"
       else "Product deactivated successfully",
       some { p with isActive := !p.isActive },
       { db with
         products :=
           updateFirst (fun q => q.id == id)
             (fun q => { q with isActive := !q.isActive }) db.products }⟩

/-- Embedding of `categoryController.update`: id format (400), body parse
(400), existence (404), name duplication when a truthy name differs from
the current one (409), then the spread-if-defined update (200). -/
def categoryController.update (db : DB) (id : String)
    (body : RawCategoryBody) : MutResult Category :=
  if isUuid id = false then ⟨400, "Invalid category ID", none, db⟩
  else
    match parseUpdateCategory body with
    | none => ⟨400, "Validation failed", none, db⟩
    | some input =>
      match db.categories.find? (fun c => c.id == id) with
      | none => ⟨404, "Category not found", none, db⟩
      | some existing =>
        let dup : Bool := match input.name with
          | none => false
          | some n =>
            if n = "" ∨ n = existing.name then false
            else (db.categories.find? (fun (c : Category) => c.name == n)).isSome
        if dup then ⟨409, "Category with this name already exists", none, db⟩
        else
          ⟨200, "Category updated successfully",
           some (applyCategoryUpdate existing input),
           { db with
             categories :=
               updateFirst (fun c => c.id == id)
                 (fun c => applyCategoryUpdate c input) db.categories }⟩

/-- Embedding of `categoryController.delete`: id format (400), existence
(404), the `hasProducts` referential guard (409), then the row removal
(204, no body). -/
def categoryController.delete (db : DB) (id : String) : MutResult Category :=
  if isUuid id = false then ⟨400, "Invalid category ID", none, db⟩
  else
    match db.categories.find? (fun c => c.id == id) with
    | none => ⟨404, "Category not found", none, db⟩
    | some _ =>
      if categoryService.hasProducts db id then
        ⟨409, "Cannot delete category with associated products", none, db⟩
      else
        ⟨204, "", none,
         { db with categories := db.categories.eraseP (fun c => c.id == id) }⟩

/-! ### Concrete sample data (used by the witnesses) -/

/-- A well-formed category id. -/
def uuidA : String := "aaaaaaaa-aaaa-aaaa-aaaa-aaaaaaaaaaaa"

/-- A second well-formed category id. -/
def uuidB : String := "bbbbbbbb-bbbb-bbbb-bbbb-bbbbbbbbbbbb"

/-- A well-formed product id. -/
def uuidC : String := "cccccccc-cccc-cccc-cccc-cccccccccccc"

/-- A well-formed id no row carries. -/
def uuidD : String := "dddddddd-dddd-dddd-dddd-dddddddddddd"

/-- A category that has one product. -/
def catA : Category := ⟨uuidA, "Electronics", none, 1, 1⟩

/-- A category that has no products. -/
def catB : Category := ⟨uuidB, "Books", some "Reading", 2, 2⟩

/-- A product in `catA` with sku `SKU-1`. -/
def prodA : Product := ⟨uuidC, "Phone", none, 100, 5, "SKU-1", true, uuidA, 3, 3⟩

/-- The sample database. -/
def dbEx : DB := ⟨[prodA], [catA, catB]⟩

/-- A raw update body with no field supplied. -/
def emptyProductBody : RawProductBody := ⟨none, .absent, none, none, none, none, none⟩

/-- A raw category-update body with no field supplied. -/
def emptyCategoryBody : RawCategoryBody := ⟨none, .absent⟩

/-! ### Helper lemmas -/

/-- Replacing the first match by `f` is the identity when `f` fixes every
matching element. -/
theorem updateFirst_eq_of_fix {p : α → Bool} {f : α → α}
    (hf : ∀ a, p a = true → f a = a) (l : List α) : updateFirst p f l = l := by
  induction l with
  | nil => rfl
  | cons x xs ih =>
    unfold updateFirst
    by_cases h : p x = true
    · rw [if_pos h, hf x h]
    · rw [if_neg h, ih]

/-- Arithmetic heart of the beyond-the-last-page case: a page index past
`Math.ceil(n / l)` places the offset at or past `n`. -/
theorem le_mul_of_mathCeilDiv_lt {n l page : Nat} (hl : 1 ≤ l)
    (h : mathCeilDiv n l < page) : n ≤ (page - 1) * l := by
  have hl0 : (0 : ℚ) < (l : ℚ) := by exact_mod_cast hl
  have hnn : (0 : ℚ) ≤ (n : ℚ) / (l : ℚ) :=
    div_nonneg (by positivity) (le_of_lt hl0)
  have hc0 : (0 : ℤ) ≤ ⌈(n : ℚ) / (l : ℚ)⌉ := Int.ceil_nonneg hnn
  have hcast : ((mathCeilDiv n l : ℤ)) = ⌈(n : ℚ) / (l : ℚ)⌉ := by
    unfold mathCeilDiv
    exact Int.toNat_of_nonneg hc0
  have h1 : mathCeilDiv n l ≤ page - 1 := Nat.le_sub_one_of_lt h
  have h2 : (n : ℚ) / l ≤ ((page - 1 : Nat) : ℚ) := by
    calc (n : ℚ) / l ≤ (⌈(n : ℚ) / l⌉ : ℚ) := Int.le_ceil _
    _ = ((mathCeilDiv n l : Nat) : ℚ) := by exact_mod_cast hcast.symm
    _ ≤ ((page - 1 : Nat) : ℚ) := by exact_mod_cast h1
  have h3 : (n : ℚ) ≤ ((page - 1 : Nat) : ℚ) * l := (div_le_iff₀ hl0).mp h2
  exact_mod_cast h3

/-- A page slice starting at or past the end of the list is empty. -/
theorem paginate_eq_nil {l : List α} {page limit : Nat}
    (h : l.length ≤ (page - 1) * limit) : paginate page limit l = [] := by
  unfold paginate
  rw [List.drop_eq_nil_of_le h, List.take_nil]

/-- A page slice is a sublist of the list it slices. -/
theorem paginate_sublist (page limit : Nat) (l : List α) :
    List.Sublist (paginate page limit l) l :=
  (List.take_sublist _ _).trans (List.drop_sublist _ _)

/-- A page slice of a sorted list is sorted. -/
theorem paginate_sorted {r : α → α → Prop} {l : List α} (page limit : Nat)
    (h : List.Sorted r l) : List.Sorted r (paginate page limit l) :=
  List.Pairwise.sublist (paginate_sublist page limit l) h

/-- With pairwise-distinct ids, `find?` on a member's id returns exactly
that member. -/
theorem find?_id_eq_of_nodup {l : List Category} {C : Category}
    (hn : (l.map Category.id).Nodup) (hm : C ∈ l) :
    l.find? (fun c => c.id == C.id) = some C := by
  induction l with
  | nil => cases hm
  | cons x xs ih =>
    rw [List.map_cons, List.nodup_cons] at hn
    rcases List.mem_cons.mp hm with rfl | hmem
    · exact List.find?_cons_of_pos _ (by simp)
    · have hx : (x.id == C.id) = false := by
        rw [beq_eq_false_iff_ne]
        intro hbeq
        exact hn.1 (hbeq ▸ List.mem_map_of_mem Category.id hmem)
      simp only [List.find?_cons, hx]
      exact ih hn.2 hmem

/-- With pairwise-distinct ids, erasing the first row carrying a member's
id removes that member from the table. -/
theorem not_mem_eraseP_of_nodup {l : List Category} {C : Category}
    (hn : (l.map Category.id).Nodup) (hm : C ∈ l) :
    C ∉ l.eraseP (fun c => c.id == C.id) := by
  induction l with
  | nil => cases hm
  | cons x xs ih =>
    rw [List.map_cons, List.nodup_cons] at hn
    by_cases hx : (x.id == C.id) = true
    · rw [List.eraseP_cons, hx]
      intro hCxs
      exact hn.1 (beq_iff_eq.mp hx ▸ List.mem_map_of_mem Category.id hCxs)
    · rw [Bool.not_eq_true] at hx
      rw [List.eraseP_cons, hx]
      have hne : C ≠ x := by
        intro h
        rw [h, beq_self_eq_true] at hx
        cases hx
      have hmem : C ∈ xs := by
        rcases List.mem_cons.mp hm with h | h
        · exact absurd h.symm (Ne.symm hne)
        · exact h
      intro hmem'
      rcases List.mem_cons.mp hmem' with h | h
      · exact hne h
      · exact ih hn.2 hmem h

/-- An over-`max` limit makes the `page` / `limit` pipeline fail. -/
theorem parsePosInt_none_of_gt {s : String} {n : ℚ} {d m : Nat}
    (hjs : jsNumber s = some n) (hm : (m : ℚ) < n) :
    parsePosInt (some s) d (some m) = none := by
  have hcond : ¬ (n.den = 1 ∧ 0 < n.num ∧ boundOk (some m) n.num = true) := by
    rintro ⟨hden, -, hmax⟩
    have hnum : ((n.num : ℚ)) = n := by
      conv_rhs => rw [← Rat.num_div_den n]
      rw [hden]
      simp
    have hlt : (m : ℤ) < n.num := by
      have : (m : ℚ) < (n.num : ℚ) := by rw [hnum]; exact hm
      exact_mod_cast this
    simp only [boundOk, decide_eq_true_eq] at hmax
    omega
  simp only [parsePosInt, hjs]
  rw [if_neg hcond]

/-- A successful `page` / `limit` parse with a `max` bound stays within the
bound. -/
theorem parsePosInt_le_max {raw : Option String} {d m v : Nat} (hd : d ≤ m)
    (h : parsePosInt raw d (some m) = some v) : v ≤ m := by
  match raw with
  | none =>
    simp only [parsePosInt, Option.some.injEq] at h
    omega
  | some s =>
    match hjs : jsNumber s with
    | none => simp only [parsePosInt, hjs] at h; cases h
    | some q =>
      simp only [parsePosInt, hjs] at h
      by_cases hc : q.den = 1 ∧ 0 < q.num ∧ boundOk (some m) q.num = true
      · rw [if_pos hc] at h
        simp only [Option.some.injEq] at h
        have hb := hc.2.2
        simp only [boundOk, decide_eq_true_eq] at hb
        omega
      · rw [if_neg hc] at h
        cases h

/-! ### The claims -/

/-- C9: every database error reaching the central handler is mapped as the
spec states — a unique-constraint error (`P2002`) to a 400 whose message
names the offending field, a not-found error (`P2025`) to 404, a
foreign-key violation (`P2003`) to 400, and every other known database
error to a 500 with the generic message. -/
theorem c9_errorHandler_db_errors (dev : Bool) (code : String)
    (target : Option (List String)) :
    (∀ f rest, code = "P2002" → target = some (f :: rest) → f ≠ "" →
      (errorHandler dev (.prismaKnown code target)).status = 400 ∧
      (errorHandler dev (.prismaKnown code target)).message =
        "A record with this " ++ f ++ " already exists") ∧
    (code = "P2025" →
      (errorHandler dev (.prismaKnown code target)).status = 404) ∧
    (code = "P2003" →
      (errorHandler dev (.prismaKnown code target)).status = 400) ∧
    (code ≠ "P2002" → code ≠ "P2025" → code ≠ "P2003" →
      (errorHandler dev (.prismaKnown code target)).status = 500 ∧
      (errorHandler dev (.prismaKnown code target)).message = "Internal server error") := by
  refine ⟨?_, ?_, ?_, ?_⟩
  · rintro f rest rfl rfl hf
    simp [errorHandler, hf]
  · rintro rfl
    simp [errorHandler]
  · rintro rfl
    simp [errorHandler]
  · intro h1 h2 h3
    simp [errorHandler, h1, h2, h3]

/-- Witness for C9 at concrete errors. -/
theorem c9_witness :
    ((errorHandler false (.prismaKnown "P2002" (some ["sku"]))).status = 400 ∧
     (errorHandler false (.prismaKnown "P2002" (some ["sku"]))).message =
       "A record with this sku already exists") ∧
    (errorHandler false (.prismaKnown "P2025" none)).status = 404 ∧
    (errorHandler false (.prismaKnown "P2003" none)).status = 400 ∧
    ((errorHandler false (.prismaKnown "P2042" none)).status = 500 ∧
     (errorHandler false (.prismaKnown "P2042" none)).message = "Internal server error") :=
  ⟨(c9_errorHandler_db_errors false "P2002" (some ["sku"])).1 "sku" [] rfl rfl (by decide),
   (c9_errorHandler_db_errors false "P2025" none).2.1 rfl,
   (c9_errorHandler_db_errors false "P2003" none).2.2.1 rfl,
   (c9_errorHandler_db_errors false "P2042" none).2.2.2 (by decide) (by decide) (by decide)⟩

set_option maxRecDepth 8000

/-- C5: behavior of product-create price validation at concrete requests.
A numeric string in range is coerced to its numeric value (201, the stored
price is `19.99`), an out-of-range numeric price (not positive, or above
`99999999.99`) is rejected with 400 — but a NON-numeric price string makes
the schema transform throw a plain `Error`, which escapes `safeParse` and
reaches the central error handler: the response is a 500, not the
400-class validation response the claim requires. -/
theorem c5_price_nonnumeric_gives_500 :
    (productController.create false uuidD 9 dbEx
      ⟨some "Widget", .absent, some (.str "19.99"), none, some "SKU-2", none, some uuidA⟩).status
        = 201 ∧
    ((productController.create false uuidD 9 dbEx
      ⟨some "Widget", .absent, some (.str "19.99"), none, some "SKU-2", none, some uuidA⟩).data.map
        Product.price) = some ((1999 : ℚ) / 100) ∧
    (productController.create false uuidD 9 dbEx
      ⟨some "Widget", .absent, some (.num (-1)), none, some "SKU-2", none, some uuidA⟩).status
        = 400 ∧
    (productController.create false uuidD 9 dbEx
      ⟨some "Widget", .absent, some (.num 100000000), none, some "SKU-2", none, some uuidA⟩).status
        = 400 ∧
    (productController.create false uuidD 9 dbEx
      ⟨some "Widget", .absent, some (.str "abc"), none, some "SKU-2", none, some uuidA⟩).status
        = 500 ∧
    ¬ (productController.create false uuidD 9 dbEx
      ⟨some "Widget", .absent, some (.str "abc"), none, some "SKU-2", none, some uuidA⟩).status
        = 400 := by
  refine ⟨?_, ?_, ?_, ?_, ?_, ?_⟩ <;> with_unfolding_all decide

/-- C6 counterexample: a list request supplying `limit=200` is answered
with a 400 validation failure, not the 200 response with a capped page
size that the claim asserts — on both the category and the product list
endpoints. -/
theorem c6_counterexample :
    (categoryController.getAll dbEx [("limit", "200")]).status = 400 ∧
    ¬ (categoryController.getAll dbEx [("limit", "200")]).status = 200 ∧
    (productController.getAll dbEx [("limit", "200")]).status = 400 ∧
    ¬ (productController.getAll dbEx [("limit", "200")]).status = 200 := by
  refine ⟨?_, ?_, ?_, ?_⟩ <;> with_unfolding_all decide

/-- C6 (amended): `limit` is bounded by 100 through rejection, not
clamping — every successfully parsed list query has `limit ≤ 100`, and a
request whose `limit` parameter exceeds 100 is answered with a 400
validation response (on both endpoints), never served. -/
theorem c6_limit_capped_by_rejection :
    (∀ raw q, parseCategoryQuery raw = some q → q.limit ≤ 100) ∧
    (∀ raw q, parseProductQuery raw = some q → q.limit ≤ 100) ∧
    (∀ (db : DB) (raw : RawQuery) (s : String) (n : ℚ),
      raw.lookup "limit" = some s → jsNumber s = some n → (100 : ℚ) < n →
      (categoryController.getAll db raw).status = 400) ∧
    (∀ (db : DB) (raw : RawQuery) (s : String) (n : ℚ),
      raw.lookup "limit" = some s → jsNumber s = some n → (100 : ℚ) < n →
      (productController.getAll db raw).status = 400) := by
  refine ⟨?_, ?_, ?_, ?_⟩
  · intro raw q h
    unfold parseCategoryQuery at h
    cases hp : parsePosInt (raw.lookup "page") 1 none with
    | none => rw [hp] at h; cases h
    | some page =>
      cases hl : parsePosInt (raw.lookup "limit") 10 (some 100) with
      | none => rw [hp, hl] at h; cases h
      | some lim =>
        rw [hp, hl] at h
        simp only [Option.some.injEq] at h
        have := parsePosInt_le_max (by omega) hl
        rw [← h]
        exact this
  · intro raw q h
    unfold parseProductQuery at h
    cases hp : parsePosInt (raw.lookup "page") 1 none with
    | none => rw [hp] at h; cases h
    | some page =>
      cases hl : parsePosInt (raw.lookup "limit") 10 (some 100) with
      | none => rw [hp, hl] at h; cases h
      | some lim =>
        rw [hp, hl] at h
        cases hmin : parsePosRat (raw.lookup "minPrice") with
        | none => rw [hmin] at h; cases h
        | some minP =>
          cases hmax : parsePosRat (raw.lookup "maxPrice") with
          | none => rw [hmin, hmax] at h; cases h
          | some maxP =>
            cases hsb : parseSortBy (raw.lookup "sortBy") with
            | none => rw [hmin, hmax, hsb] at h; cases h
            | some sb =>
              cases hso : parseSortOrder (raw.lookup "sortOrder") with
              | none => rw [hmin, hmax, hsb, hso] at h; cases h
              | some so =>
                rw [hmin, hmax, hsb, hso] at h
                dsimp only at h
                by_cases hcid : (match raw.lookup "categoryId" with
                  | none => true
                  | some c => isUuid c) = true
                · rw [if_pos hcid] at h
                  simp only [Option.some.injEq] at h
                  have := parsePosInt_le_max (by omega) hl
                  rw [← h]
                  exact this
                · rw [if_neg hcid] at h
                  cases h
  · intro db raw s n hs hjs hn
    have hnone : parsePosInt (some s) 10 (some 100) = none :=
      parsePosInt_none_of_gt hjs hn
    have : parseCategoryQuery raw = none := by
      unfold parseCategoryQuery
      rw [hs, hnone]
      cases parsePosInt (raw.lookup "page") 1 none <;> rfl
    simp [categoryController.getAll, this]
  · intro db raw s n hs hjs hn
    have hnone : parsePosInt (some s) 10 (some 100) = none :=
      parsePosInt_none_of_gt hjs hn
    have : parseProductQuery raw = none := by
      unfold parseProductQuery
      rw [hs, hnone]
      cases parsePosInt (raw.lookup "page") 1 none <;> rfl
    simp [productController.getAll, this]

/-- Witness for the amended C6 at a concrete query. -/
theorem c6_witness :
    ((⟨1, 50, none⟩ : CategoryQuery).limit ≤ 100) ∧
    (categoryController.getAll dbEx [("limit", "101")]).status = 400 ∧
    (productController.getAll dbEx [("page", "1"), ("limit", "101")]).status = 400 :=
  ⟨c6_limit_capped_by_rejection.1 [("limit", "50")] ⟨1, 50, none⟩
     (by with_unfolding_all decide),
   c6_limit_capped_by_rejection.2.2.1 dbEx [("limit", "101")] "101" 101 rfl
     (by with_unfolding_all decide) (by norm_num),
   c6_limit_capped_by_rejection.2.2.2 dbEx [("page", "1"), ("limit", "101")] "101" 101 rfl
     (by with_unfolding_all decide) (by norm_num)⟩

/-- C1: in the sequential request model, when a product with the request's
sku already exists, a well-formed create request (validated body, existing
category) is answered 409 with the database unchanged; and, for any request
whatsoever, the rows carrying an already-present sku are preserved exactly
— a second row with an existing sku is never inserted. -/
theorem c1_sku_conflict :
    (∀ (dev : Bool) (fresh : String) (now : Nat) (db : DB) (body : RawProductBody)
       (input : CreateProductInput),
       parseCreateProduct body = .ok input →
       (∃ c ∈ db.categories, c.id = input.categoryId) →
       (∃ p ∈ db.products, p.sku = input.sku) →
       (productController.create dev fresh now db body).status = 409 ∧
       (productController.create dev fresh now db body).db = db) ∧
    (∀ (dev : Bool) (fresh : String) (now : Nat) (db : DB) (body : RawProductBody)
       (S : String),
       (∃ p ∈ db.products, p.sku = S) →
       (productController.create dev fresh now db body).db.products.filter
           (fun p => p.sku == S) =
         db.products.filter (fun p => p.sku == S)) := by
  constructor
  · intro dev fresh now db body input hparse hcat hsku
    obtain ⟨c, hcmem, hcid⟩ := hcat
    obtain ⟨p, hpmem, hpsku⟩ := hsku
    have hcfind : (db.categories.find? (fun k => k.id == input.categoryId)).isSome := by
      rw [List.find?_isSome]
      exact ⟨c, hcmem, by rw [hcid]; simp⟩
    have hpfind : (db.products.find? (fun k => k.sku == input.sku)).isSome := by
      rw [List.find?_isSome]
      exact ⟨p, hpmem, by rw [hpsku]; simp⟩
    simp only [productController.create, hparse]
    cases hc : db.categories.find? (fun k => k.id == input.categoryId) with
    | none => rw [hc] at hcfind; cases hcfind
    | some c0 =>
      cases hp : db.products.find? (fun k => k.sku == input.sku) with
      | none => rw [hp] at hpfind; cases hpfind
      | some p0 => exact ⟨rfl, rfl⟩
  · intro dev fresh now db body S hS
    obtain ⟨p, hpmem, hpsku⟩ := hS
    cases hparse : parseCreateProduct body with
    | threw m => simp [productController.create, hparse]
    | fail m => simp [productController.create, hparse]
    | ok input =>
      cases hc : db.categories.find? (fun k => k.id == input.categoryId) with
      | none => simp [productController.create, hparse, hc]
      | some c0 =>
        cases hp : db.products.find? (fun k => k.sku == input.sku) with
        | some p0 => simp [productController.create, hparse, hc, hp]
        | none =>
          have hall := List.find?_eq_none.mp hp
          have hne : (input.sku == S) = false := by
            rw [beq_eq_false_iff_ne]
            intro h
            exact hall p hpmem (by rw [hpsku, h]; simp)
          simp only [productController.create, hparse, hc, hp, List.filter_append]
          have hnil : List.filter (fun q => q.sku == S) [mkProduct fresh now input] = [] := by
            simp [mkProduct, hne]
          rw [hnil, List.append_nil]

/-- Witness for C1: creating a product whose sku `SKU-1` is already taken
yields 409 and leaves the database untouched. -/
theorem c1_witness :
    (productController.create false uuidD 9 dbEx
      ⟨some "Widget", .absent, some (.num 50), none, some "SKU-1", none, some uuidA⟩).status
        = 409 ∧
    (productController.create false uuidD 9 dbEx
      ⟨some "Widget", .absent, some (.num 50), none, some "SKU-1", none, some uuidA⟩).db
        = dbEx :=
  c1_sku_conflict.1 false uuidD 9 dbEx
    ⟨some "Widget", .absent, some (.num 50), none, some "SKU-1", none, some uuidA⟩
    ⟨"Widget", .absent, 50, 0, "SKU-1", true, uuidA⟩
    (by with_unfolding_all decide)
    ⟨catA, by with_unfolding_all decide, rfl⟩
    ⟨prodA, by with_unfolding_all decide, rfl⟩

/-- C2: for an existing category (well-formed id, table with distinct ids),
deletion is refused with 409 and the database is left untouched when at
least one product references it, and succeeds with 204, removing exactly
that category row and no product, when no product references it. -/
theorem c2_category_delete (db : DB) (C : Category)
    (hu : isUuid C.id = true)
    (hn : (db.categories.map Category.id).Nodup)
    (hm : C ∈ db.categories) :
    ((∃ p ∈ db.products, p.categoryId = C.id) →
      (categoryController.delete db C.id).status = 409 ∧
      (categoryController.delete db C.id).db = db) ∧
    ((¬ ∃ p ∈ db.products, p.categoryId = C.id) →
      (categoryController.delete db C.id).status = 204 ∧
      (categoryController.delete db C.id).db.products = db.products ∧
      (categoryController.delete db C.id).db.categories =
        db.categories.eraseP (fun c => c.id == C.id) ∧
      C ∉ (categoryController.delete db C.id).db.categories) := by
  have hfind := find?_id_eq_of_nodup hn hm
  constructor
  · intro hex
    obtain ⟨p, hpmem, hpcat⟩ := hex
    have hhas : categoryService.hasProducts db C.id = true := by
      unfold categoryService.hasProducts
      have : p ∈ db.products.filter (fun q => q.categoryId == C.id) :=
        List.mem_filter.mpr ⟨hpmem, by rw [hpcat]; simp⟩
      simp only [decide_eq_true_eq]
      exact List.length_pos.mpr (List.ne_nil_of_mem this)
    unfold categoryController.delete
    rw [hu, hfind, hhas]
    simp
  · intro hnone
    have hhas : categoryService.hasProducts db C.id = false := by
      unfold categoryService.hasProducts
      have : db.products.filter (fun q => q.categoryId == C.id) = [] := by
        rw [List.filter_eq_nil_iff]
        intro a ha hq
        exact hnone ⟨a, ha, beq_iff_eq.mp hq⟩
      simp [this]
    unfold categoryController.delete
    rw [hu, hfind, hhas]
    simp
    exact not_mem_eraseP_of_nodup hn hm

/-- Witness for C2: deleting the category holding the sample product gives
409 and no change; deleting the empty category gives 204 and removes it. -/
theorem c2_witness :
    ((categoryController.delete dbEx uuidA).status = 409 ∧
     (categoryController.delete dbEx uuidA).db = dbEx) ∧
    ((categoryController.delete dbEx uuidB).status = 204 ∧
     catB ∉ (categoryController.delete dbEx uuidB).db.categories) :=
  ⟨(c2_category_delete dbEx catA (by decide) (by decide) (by decide)).1
     ⟨prodA, by decide, rfl⟩,
   ⟨((c2_category_delete dbEx catB (by decide) (by decide) (by decide)).2
       (by decide)).1,
    ((c2_category_delete dbEx catB (by decide) (by decide) (by decide)).2
       (by decide)).2.2.2⟩⟩

/-- C3: both list services fetch the page slice at offset `(page − 1) ×
limit` with size `limit`, return the metadata `{page, limit, total,
totalPages = ceil(total / limit)}` over the filtered row count, a page
index beyond `totalPages` produces an empty item list with that same
metadata, and any successfully validated list request is answered 200,
never an error. -/
theorem c3_pagination (db : DB) (q : ProductQuery) (cq : CategoryQuery)
    (hq : 1 ≤ q.limit) (hcq : 1 ≤ cq.limit) :
    ((productService.findAll q db).2 =
      ⟨q.page, q.limit, (db.products.filter (productWhere q)).length,
       mathCeilDiv (db.products.filter (productWhere q)).length q.limit⟩) ∧
    ((productService.findAll q db).1 =
      paginate q.page q.limit
        (List.insertionSort (prodR q.sortBy q.sortOrder)
          (db.products.filter (productWhere q)))) ∧
    (mathCeilDiv (db.products.filter (productWhere q)).length q.limit < q.page →
      (productService.findAll q db).1 = []) ∧
    ((categoryService.findAll cq db).2 =
      ⟨cq.page, cq.limit, (db.categories.filter (categoryWhere cq)).length,
       mathCeilDiv (db.categories.filter (categoryWhere cq)).length cq.limit⟩) ∧
    ((categoryService.findAll cq db).1 =
      paginate cq.page cq.limit
        (List.insertionSort createdAtDesc (db.categories.filter (categoryWhere cq)))) ∧
    (mathCeilDiv (db.categories.filter (categoryWhere cq)).length cq.limit < cq.page →
      (categoryService.findAll cq db).1 = []) ∧
    (∀ raw q0, parseProductQuery raw = some q0 →
      (productController.getAll db raw).status = 200) ∧
    (∀ raw q0, parseCategoryQuery raw = some q0 →
      (categoryController.getAll db raw).status = 200) := by
  refine ⟨rfl, rfl, ?_, rfl, rfl, ?_, ?_, ?_⟩
  · intro h
    apply paginate_eq_nil
    rw [List.length_insertionSort]
    exact le_mul_of_mathCeilDiv_lt hq h
  · intro h
    apply paginate_eq_nil
    rw [List.length_insertionSort]
    exact le_mul_of_mathCeilDiv_lt hcq h
  · intro raw q0 h
    simp [productController.getAll, h]
  · intro raw q0 h
    simp [categoryController.getAll, h]

/-- Witness for C3: page 5 of the one-product sample database is empty and
its metadata still reports `total = 1`, `totalPages = 1`. -/
theorem c3_witness :
    (productService.findAll ⟨5, 10, none, none, none, none, none, .createdAt, .desc⟩ dbEx).1
      = [] ∧
    (categoryService.findAll ⟨7, 10, none⟩ dbEx).1 = [] ∧
    (categoryController.getAll dbEx []).status = 200 :=
  ⟨(c3_pagination dbEx ⟨5, 10, none, none, none, none, none, .createdAt, .desc⟩
      ⟨7, 10, none⟩ (by decide) (by decide)).2.2.1 (by with_unfolding_all decide),
   (c3_pagination dbEx ⟨5, 10, none, none, none, none, none, .createdAt, .desc⟩
      ⟨7, 10, none⟩ (by decide) (by decide)).2.2.2.2.2.1 (by with_unfolding_all decide),
   (c3_pagination dbEx ⟨5, 10, none, none, none, none, none, .createdAt, .desc⟩
      ⟨7, 10, none⟩ (by decide) (by decide)).2.2.2.2.2.2.2 [] ⟨1, 10, none⟩
      (by with_unfolding_all decide)⟩

/-- C4: both update services write exactly the fields present in the
validated input — a field absent from the input keeps its prior value, a
field present receives the supplied value, an explicit `null` on the
nullable description clears it — and every column the input cannot name
(id, timestamps) keeps its prior value. -/
theorem c4_partial_update_semantics (p : Product) (u : UpdateProductInput)
    (c : Category) (v : UpdateCategoryInput) :
    (u.name = none → (applyProductUpdate p u).name = p.name) ∧
    (∀ s, u.name = some s → (applyProductUpdate p u).name = s) ∧
    (u.price = none → (applyProductUpdate p u).price = p.price) ∧
    (∀ x, u.price = some x → (applyProductUpdate p u).price = x) ∧
    (u.stock = none → (applyProductUpdate p u).stock = p.stock) ∧
    (∀ x, u.stock = some x → (applyProductUpdate p u).stock = x) ∧
    (u.sku = none → (applyProductUpdate p u).sku = p.sku) ∧
    (∀ s, u.sku = some s → (applyProductUpdate p u).sku = s) ∧
    (u.isActive = none → (applyProductUpdate p u).isActive = p.isActive) ∧
    (∀ b, u.isActive = some b → (applyProductUpdate p u).isActive = b) ∧
    (u.categoryId = none → (applyProductUpdate p u).categoryId = p.categoryId) ∧
    (∀ s, u.categoryId = some s → (applyProductUpdate p u).categoryId = s) ∧
    (u.description = .absent → (applyProductUpdate p u).description = p.description) ∧
    (u.description = .null → (applyProductUpdate p u).description = none) ∧
    (∀ s, u.description = .val s → (applyProductUpdate p u).description = some s) ∧
    (applyProductUpdate p u).createdAt = p.createdAt ∧
    (applyProductUpdate p u).updatedAt = p.updatedAt ∧
    (applyProductUpdate p u).id = p.id ∧
    (v.name = none → (applyCategoryUpdate c v).name = c.name) ∧
    (∀ s, v.name = some s → (applyCategoryUpdate c v).name = s) ∧
    (v.description = .absent → (applyCategoryUpdate c v).description = c.description) ∧
    (v.description = .null → (applyCategoryUpdate c v).description = none) ∧
    (∀ s, v.description = .val s → (applyCategoryUpdate c v).description = some s) ∧
    (applyCategoryUpdate c v).createdAt = c.createdAt ∧
    (applyCategoryUpdate c v).updatedAt = c.updatedAt ∧
    (applyCategoryUpdate c v).id = c.id := by
  refine ⟨?_, ?_, ?_, ?_, ?_, ?_, ?_, ?_, ?_, ?_, ?_, ?_, ?_, ?_, ?_, ?_, ?_, ?_,
          ?_, ?_, ?_, ?_, ?_, ?_, ?_, ?_⟩
  all_goals intros
  all_goals simp [applyProductUpdate, applyCategoryUpdate, *]

/-- Witness for C4: an update supplying only a price and a `null`
description changes exactly those two product fields; a category update
supplying only a name changes exactly the name. -/
theorem c4_witness :
    (applyProductUpdate prodA ⟨none, .null, some 5, none, none, none, none⟩).name
      = prodA.name ∧
    (applyProductUpdate prodA ⟨none, .null, some 5, none, none, none, none⟩).price = 5 ∧
    (applyProductUpdate prodA ⟨none, .null, some 5, none, none, none, none⟩).description
      = none ∧
    (applyCategoryUpdate catB ⟨some "Novels", .absent⟩).name = "Novels" ∧
    (applyCategoryUpdate catB ⟨some "Novels", .absent⟩).description = catB.description := by
  obtain ⟨h1, -, -, h4, -, -, -, -, -, -, -, -, -, h14, -, -, -, -, -, h20, h21, -⟩ :=
    c4_partial_update_semantics prodA ⟨none, .null, some 5, none, none, none, none⟩
      catB ⟨some "Novels", .absent⟩
  exact ⟨h1 rfl, h4 5 rfl, h14 rfl, h20 "Novels" rfl, h21 rfl⟩

/-- C7: with a well-formed id, toggle-active answers 404 and changes
nothing when no product carries the id; otherwise it answers 200 with the
found record carrying the negated `isActive` flag and every other field
unchanged, and the table is updated only at that row. -/
theorem c7_toggle_active (db : DB) (id : String) (hu : isUuid id = true) :
    ((∀ p ∈ db.products, p.id ≠ id) →
      (productController.toggleActive db id).status = 404 ∧
      (productController.toggleActive db id).db = db) ∧
    (∀ p, db.products.find? (fun q => q.id == id) = some p →
      (productController.toggleActive db id).status = 200 ∧
      (productController.toggleActive db id).data =
        some { p with isActive := !p.isActive } ∧
      (productController.toggleActive db id).db.products =
        updateFirst (fun q => q.id == id)
          (fun q => { q with isActive := !q.isActive }) db.products ∧
      (productController.toggleActive db id).db.categories = db.categories) := by
  constructor
  · intro hnone
    have hfind : db.products.find? (fun q => q.id == id) = none := by
      rw [List.find?_eq_none]
      intro x hx hbeq
      exact hnone x hx (beq_iff_eq.mp hbeq)
    unfold productController.toggleActive
    rw [hu, hfind]
    simp
  · intro p hfind
    unfold productController.toggleActive
    rw [hu, hfind]
    simp

/-- Witness for C7: toggling an unknown id is a 404; toggling the sample
product returns it with `isActive` flipped from `true` to `false`. -/
theorem c7_witness :
    (productController.toggleActive dbEx uuidD).status = 404 ∧
    (productController.toggleActive dbEx uuidC).status = 200 ∧
    (productController.toggleActive dbEx uuidC).data =
      some { prodA with isActive := false } :=
  ⟨((c7_toggle_active dbEx uuidD (by decide)).1 (by decide)).1,
   ((c7_toggle_active dbEx uuidC (by decide)).2 prodA (by decide)).1,
   ((c7_toggle_active dbEx uuidC (by decide)).2 prodA (by decide)).2.1⟩

/-- C8: updating an existing product or category with an empty partial
body is a no-op — 200, the returned record equal to the stored one in
every field (timestamps included, under the spec-modelled timestamp
convention of `applyProductUpdate`), and the database unchanged. -/
theorem c8_empty_update_noop (dev : Bool) (db : DB) (pid cid : String)
    (p : Product) (c : Category)
    (hpu : isUuid pid = true) (hcu : isUuid cid = true)
    (hp : db.products.find? (fun q => q.id == pid) = some p)
    (hc : db.categories.find? (fun k => k.id == cid) = some c) :
    (productController.update dev db pid emptyProductBody).status = 200 ∧
    (productController.update dev db pid emptyProductBody).data = some p ∧
    (productController.update dev db pid emptyProductBody).db = db ∧
    (categoryController.update db cid emptyCategoryBody).status = 200 ∧
    (categoryController.update db cid emptyCategoryBody).data = some c ∧
    (categoryController.update db cid emptyCategoryBody).db = db := by
  have hparseP : parseUpdateProduct emptyProductBody =
      .ok ⟨none, .absent, none, none, none, none, none⟩ := rfl
  have hparseC : parseUpdateCategory emptyCategoryBody = some ⟨none, .absent⟩ := rfl
  have happ : ∀ a : Product,
      applyProductUpdate a ⟨none, .absent, none, none, none, none, none⟩ = a :=
    fun a => rfl
  have happC : ∀ a : Category, applyCategoryUpdate a ⟨none, .absent⟩ = a :=
    fun a => rfl
  have hfixP : updateFirst (fun q => q.id == pid) (fun q : Product => q)
      db.products = db.products :=
    updateFirst_eq_of_fix (fun _ _ => rfl) _
  have hfixC : updateFirst (fun k => k.id == cid) (fun k : Category => k)
      db.categories = db.categories :=
    updateFirst_eq_of_fix (fun _ _ => rfl) _
  have hP : productController.update dev db pid emptyProductBody =
      ⟨200, "Product updated successfully", some p, db⟩ := by
    unfold productController.update
    rw [hpu, hparseP, hp]
    simp [happ, hfixP]
  have hC : categoryController.update db cid emptyCategoryBody =
      ⟨200, "Category updated successfully", some c, db⟩ := by
    unfold categoryController.update
    rw [hcu, hparseC, hc]
    simp [happC, hfixC]
  exact ⟨by rw [hP], by rw [hP], by rw [hP], by rw [hC], by rw [hC], by rw [hC]⟩

/-- Witness for C8: empty-body updates of the sample product and the
sample category return them unchanged and leave the database as it was. -/
theorem c8_witness :
    (productController.update false dbEx uuidC emptyProductBody).data = some prodA ∧
    (productController.update false dbEx uuidC emptyProductBody).db = dbEx ∧
    (categoryController.update dbEx uuidB emptyCategoryBody).data = some catB ∧
    (categoryController.update dbEx uuidB emptyCategoryBody).db = dbEx := by
  obtain ⟨-, h2, h3, -, h5, h6⟩ :=
    c8_empty_update_noop false dbEx uuidC uuidB prodA catB
      (by decide) (by decide) (by decide) (by decide)
  exact ⟨h2, h3, h5, h6⟩

/-- C10: the category listing is ordered by `createdAt` descending for
every query — the slice the endpoint returns is sorted by that key no
matter which parameters are supplied — and the category query schema
consults no sort parameter: any key other than `page`, `limit` and
`search` is ignored by validation. -/
theorem c10_category_order (db : DB) :
    (∀ q : CategoryQuery, List.Sorted createdAtDesc (categoryService.findAll q db).1) ∧
    (∀ raw : RawQuery, List.Sorted createdAtDesc (categoryController.getAll db raw).items) ∧
    (∀ (raw : RawQuery) (k v : String), k ≠ "page" → k ≠ "limit" → k ≠ "search" →
      parseCategoryQuery ((k, v) :: raw) = parseCategoryQuery raw) := by
  have hsorted : ∀ q : CategoryQuery,
      List.Sorted createdAtDesc (categoryService.findAll q db).1 := by
    intro q
    unfold categoryService.findAll
    exact paginate_sorted _ _ (List.sorted_insertionSort createdAtDesc _)
  refine ⟨hsorted, ?_, ?_⟩
  · intro raw
    unfold categoryController.getAll
    cases hp : parseCategoryQuery raw with
    | none => exact List.sorted_nil
    | some q0 => exact hsorted q0
  · intro raw k v hk1 hk2 hk3
    have e1 : List.lookup "page" ((k, v) :: raw) = List.lookup "page" raw := by
      simp [List.lookup, beq_eq_false_iff_ne.mpr (Ne.symm hk1)]
    have e2 : List.lookup "limit" ((k, v) :: raw) = List.lookup "limit" raw := by
      simp [List.lookup, beq_eq_false_iff_ne.mpr (Ne.symm hk2)]
    have e3 : List.lookup "search" ((k, v) :: raw) = List.lookup "search" raw := by
      simp [List.lookup, beq_eq_false_iff_ne.mpr (Ne.symm hk3)]
    unfold parseCategoryQuery
    rw [e1, e2, e3]

/-- Witness for C10: the sample listing comes out sorted, and supplying a
`sortBy` parameter to the category endpoint parses identically to not
supplying it. -/
theorem c10_witness :
    List.Sorted createdAtDesc (categoryController.getAll dbEx []).items ∧
    parseCategoryQuery [("sortBy", "name")] = parseCategoryQuery [] :=
  ⟨(c10_category_order dbEx).2.1 [],
   (c10_category_order dbEx).2.2 [] "sortBy" "name" (by decide) (by decide) (by decide)⟩

end NodeApiStarter
